import Mathlib

/-!
Shallow embedding of the `nmea` repository (Rust) for claim verification.

Bytes are modelled as `Nat` (values 0..255 in all intended uses).  Rust
`f32` parsing is modelled over exact decimal/scientific literals with
values in `ℚ`; the special literals `inf`/`infinity`/`nan` are modelled as
parse failures (no claim in this development depends on them, and whether a
parse succeeds is unchanged on every input that appears here).  A Rust
panic is modelled as `none` (or a dedicated `panicked` outcome where a
caller distinguishes panics from recoverable errors).
-/

namespace NMEA

/-- Decide whether a byte is an ASCII decimal digit. -/
def isDigit (c : Nat) : Bool := 48 ≤ c && c ≤ 57

/-- Numeric value of a digit string (most significant first). -/
def digitsVal (l : List Nat) : Nat := l.foldl (fun a c => a * 10 + (c - 48)) 0

/-- Model of Rust `uN::from_str` for unsigned integers: an optional `+`
sign, then a non-empty run of decimal digits, failing on overflow past
`bound`.  Unsigned parsing rejects a `-` sign outright. -/
def parseUnsigned (bound : Nat) (l : List Nat) : Option Nat :=
  let l1 := if l.headD 0 = 43 then l.tail else l
  if l1 = [] then none
  else if !(l1.all isDigit) then none
  else if digitsVal l1 ≤ bound then some (digitsVal l1) else none

/-- Model of Rust `u8::from_str`. -/
def parseU8 : List Nat → Option Nat := parseUnsigned 255

/-- Model of Rust `u16::from_str`. -/
def parseU16 : List Nat → Option Nat := parseUnsigned 65535

/-- Value of an ASCII hex digit (both cases), or `none`. -/
def hexVal (c : Nat) : Option Nat :=
  if 48 ≤ c && c ≤ 57 then some (c - 48)
  else if 65 ≤ c && c ≤ 70 then some (c - 55)
  else if 97 ≤ c && c ≤ 102 then some (c - 87)
  else none

/-- Numeric value of a hex digit string (most significant first). -/
def hexDigitsVal (l : List Nat) : Nat :=
  l.foldl (fun a c => a * 16 + (hexVal c).getD 0) 0

/-- Model of Rust `u8::from_str_radix(s, 16)`: optional `+`, then a
non-empty run of hex digits, failing on overflow past 255. -/
def parseHexU8 (l : List Nat) : Option Nat :=
  let l1 := if l.headD 0 = 43 then l.tail else l
  if l1 = [] then none
  else if !(l1.all (fun c => (hexVal c).isSome)) then none
  else if hexDigitsVal l1 ≤ 255 then some (hexDigitsVal l1) else none

/-- Whitespace test used by Rust `str::trim` restricted to the characters
U+0000..U+00FF that the byte-to-char cast can produce: tab, LF, vertical
tab, form feed, CR, space, NEL (U+0085) and NBSP (U+00A0). -/
def isWhitespaceByte (c : Nat) : Bool :=
  c == 9 || c == 10 || c == 11 || c == 12 || c == 13 || c == 32 || c == 133 || c == 160

/-- Model of Rust `str::trim` on the char sequence. -/
def trimBytes (l : List Nat) : List Nat :=
  ((l.dropWhile isWhitespaceByte).reverse.dropWhile isWhitespaceByte).reverse

/-- Bytes skipped by `calculate_checksum`'s leading `skip_while`:
`$` (36), `!` (33) and `,` (44). -/
def isSkipByte (c : Nat) : Bool := c == 36 || c == 33 || c == 44

/-- XOR of a list of bytes, folded from 0 as the Rust loop does. -/
def xorAll (l : List Nat) : Nat := l.foldl (fun a c => a ^^^ c) 0

/-- Maximum sentence length, `NMEA_SENTENCE_MAX_LENGTH` in the source. -/
def NMEA_SENTENCE_MAX_LENGTH : Nat := 82

/-- The `NMEASentence` struct: an 82-byte buffer plus occupied length. -/
structure NMEASentence where
  characters : List Nat
  length : Nat
deriving DecidableEq, Repr

/-- Embedding of `NMEASentence::calculate_checksum`: skip the leading
run of `$`/`!`/`,` bytes, then XOR every byte until a `*` (42) or the end
of the whole 82-byte buffer. -/
def calculate_checksum (s : NMEASentence) : Nat :=
  xorAll ((s.characters.dropWhile isSkipByte).takeWhile (fun c => c ≠ 42))

/-- Embedding of `NMEASentence::parse_checksum`: drop bytes up to the
first `*`, drop the `*` itself, then trim the remaining chars and parse
them as a hex `u8`, defaulting to 0 on failure. -/
def parse_checksum (s : NMEASentence) : Nat :=
  (parseHexU8 (trimBytes ((s.characters.dropWhile (fun c => c ≠ 42)).drop 1))).getD 0

/-- Embedding of `NMEASentence::valid`. -/
def valid (s : NMEASentence) : Bool :=
  calculate_checksum s == parse_checksum s

/-- The `NMEAAddressFieldType` enum. -/
inductive NMEAAddressFieldType where
  | INVALID | APPROVED | QUERY | PROPRIETARY
deriving DecidableEq, Repr

/-- The `NMEAApprovedAddressField` struct (2-char talker, 3-char formatter). -/
structure NMEAApprovedAddressField where
  talker : Nat × Nat
  formatter : Nat × Nat × Nat
deriving DecidableEq, Repr

/-- The `NMEAQueryAddressField` struct (2-char listener, 2-char talker). -/
structure NMEAQueryAddressField where
  listener : Nat × Nat
  talker : Nat × Nat
deriving DecidableEq, Repr

/-- The `NMEAProprietaryAddressField` struct (3-char manufacturer code). -/
structure NMEAProprietaryAddressField where
  manufacturer : Nat × Nat × Nat
deriving DecidableEq, Repr

/-- The `Address` enum. -/
inductive Address where
  | Approved (a : NMEAApprovedAddressField)
  | Query (a : NMEAQueryAddressField)
  | Proprietary (a : NMEAProprietaryAddressField)
deriving DecidableEq, Repr

/-- The `NMEAAddressField` struct. -/
structure NMEAAddressField where
  address_type : NMEAAddressFieldType
  address : Address
deriving DecidableEq, Repr

/-- The `SentenceType` enum. -/
inductive SentenceType where
  | INVALID | PARAMETRIC | ENCAPSULATION | QUERY | PROPRIETARY
deriving DecidableEq, Repr

/-- The `NMEADateContent` struct. -/
structure NMEADateContent where
  sentence_type : SentenceType
  address : Option NMEAAddressField
  content : List Nat
deriving DecidableEq, Repr

/-- Rust slice indexing `l[a..b]`: panics (`none`) when `a > b` or
`b > l.len()`. -/
def rustSlice (l : List Nat) (a b : Nat) : Option (List Nat) :=
  if a ≤ b ∧ b ≤ l.length then some ((l.take b).drop a) else none

/-- Embedding of `NMEASentence::decode_approved_address`. -/
def decode_approved_address (s : NMEASentence) : NMEAAddressField :=
  { address_type := NMEAAddressFieldType.APPROVED
    address := Address.Approved
      { talker := (s.characters.getD 1 0, s.characters.getD 2 0)
        formatter := (s.characters.getD 3 0, s.characters.getD 4 0, s.characters.getD 5 0) } }

/-- Embedding of `NMEASentence::decode_query_address`. -/
def decode_query_address (s : NMEASentence) : NMEAAddressField :=
  { address_type := NMEAAddressFieldType.QUERY
    address := Address.Query
      { listener := (s.characters.getD 1 0, s.characters.getD 2 0)
        talker := (s.characters.getD 3 0, s.characters.getD 4 0) } }

/-- Embedding of `NMEASentence::decode_proprietary_address`. -/
def decode_proprietary_address (s : NMEASentence) : NMEAAddressField :=
  { address_type := NMEAAddressFieldType.PROPRIETARY
    address := Address.Proprietary
      { manufacturer := (s.characters.getD 1 0, s.characters.getD 2 0, s.characters.getD 3 0) } }

/-- Embedding of `NMEASentence::decode`.  `none` models a panic (the
slice `characters[k .. length - 3]` panics when `k > length - 3`). -/
def decode (s : NMEASentence) : Option NMEADateContent :=
  if s.length ≤ 5 then
    some { sentence_type := SentenceType.INVALID, address := none, content := s.characters }
  else if s.characters.getD 0 0 = 33 then
    match rustSlice s.characters 7 (s.length - 3) with
    | none => none
    | some content =>
        some { sentence_type := SentenceType.ENCAPSULATION
               address := some (decode_approved_address s), content := content }
  else if s.characters.getD 0 0 = 36 then
    if s.characters.getD 1 0 = 80 then
      match rustSlice s.characters 4 (s.length - 3) with
      | none => none
      | some content =>
          some { sentence_type := SentenceType.PROPRIETARY
                 address := some (decode_proprietary_address s), content := content }
    else if s.characters.getD 5 0 = 81 then
      match rustSlice s.characters 6 (s.length - 3) with
      | none => none
      | some content =>
          some { sentence_type := SentenceType.QUERY
                 address := some (decode_query_address s), content := content }
    else
      match rustSlice s.characters 7 (s.length - 3) with
      | none => none
      | some content =>
          some { sentence_type := SentenceType.PARAMETRIC
                 address := some (decode_approved_address s), content := content }
  else
    some { sentence_type := SentenceType.INVALID, address := none, content := s.characters }

/-- Embedding of Rust `slice::split(|x| x == b',')` as used by
`NMEADateContent::parse_content_fields`; an empty input yields one empty
field, and separators at either end yield empty fields. -/
def splitFields : List Nat → List (List Nat)
  | [] => [[]]
  | b :: rest =>
    if b = 44 then [] :: splitFields rest
    else
      match splitFields rest with
      | f :: fs => (b :: f) :: fs
      | [] => [[b]]

/-- Embedding of `NMEADateContent::parse_content_fields`. -/
def parse_content_fields (d : NMEADateContent) : List (List Nat) :=
  splitFields d.content

/-- Strip an optional leading `+` (43) or `-` (45) sign; the flag is true
when the sign was `-`. -/
def stripSign : List Nat → Bool × List Nat
  | 43 :: r => (false, r)
  | 45 :: r => (true, r)
  | r => (false, r)

/-- Split a byte list at the first occurrence of `sep`, keeping the part
before it and, when found, the part after it. -/
def breakAtByte (sep : Nat) : List Nat → List Nat × Option (List Nat)
  | [] => ([], none)
  | c :: r =>
    if c = sep then ([], some r)
    else
      let p := breakAtByte sep r
      (c :: p.1, p.2)

/-- Split a byte list at the first `e` (101) or `E` (69). -/
def breakAtExp : List Nat → List Nat × Option (List Nat)
  | [] => ([], none)
  | c :: r =>
    if c = 101 ∨ c = 69 then ([], some r)
    else
      let p := breakAtExp r
      (c :: p.1, p.2)

/-- Apply an optional scientific exponent part to a mantissa value; the
exponent is an optionally signed non-empty digit run. -/
def applyExp (expPart : Option (List Nat)) (q : ℚ) : Option ℚ :=
  match expPart with
  | none => some q
  | some e =>
    let p := stripSign e
    if p.2 = [] then none
    else if !(p.2.all isDigit) then none
    else
      let z : ℤ := if p.1 then -(digitsVal p.2 : ℤ) else (digitsVal p.2 : ℤ)
      some (q * (10 : ℚ) ^ z)

/-- Model of Rust `f32::from_str` over exact decimal and scientific
literals, with the value in `ℚ`: an optional sign, an integer part and/or
a fractional part (at least one digit between them), and an optional
signed exponent after `e`/`E`.  The special literals `inf`, `infinity`
and `nan` are modelled as failures (see the header comment). -/
def parseF32 (l : List Nat) : Option ℚ :=
  let s := stripSign l
  let m := breakAtExp s.2
  let ip := (breakAtByte 46 m.1).1
  let fpOpt := (breakAtByte 46 m.1).2
  if !(ip.all isDigit) then none
  else
    match fpOpt with
    | some fp =>
      if !(fp.all isDigit) then none
      else if ip = [] ∧ fp = [] then none
      else
        let v : ℚ := (digitsVal ip : ℚ) + (digitsVal fp : ℚ) / (10 : ℚ) ^ fp.length
        applyExp m.2 (if s.1 then -v else v)
    | none =>
      if ip = [] then none
      else
        let v : ℚ := (digitsVal ip : ℚ)
        applyExp m.2 (if s.1 then -v else v)

/-- Model of chrono `NaiveTime` restricted to what the parsers below
produce: hour, minute, second and nanosecond fields.  `NaiveTime::default`
is midnight. -/
structure NTime where
  hour : Nat
  minute : Nat
  second : Nat
  nanosecond : Nat
deriving DecidableEq, Repr

/-- Midnight, the `NaiveTime::default` value. -/
def NTime.midnight : NTime := ⟨0, 0, 0, 0⟩

/-- Read one numeric field of maximum width 2 (chrono numeric parsing
takes greedily up to the width, at least one digit). -/
def take2Digits : List Nat → Option (Nat × List Nat)
  | [] => none
  | [a] => if isDigit a then some (a - 48, []) else none
  | a :: b :: rest =>
    if isDigit a then
      if isDigit b then some ((a - 48) * 10 + (b - 48), rest)
      else some (a - 48, b :: rest)
    else none

/-- Nanoseconds denoted by a fraction digit run (first nine digits,
right-padded with zeros), as chrono's `Nanosecond` item computes. -/
def fracNano (ds : List Nat) : Nat :=
  digitsVal (ds.take 9) * 10 ^ (9 - min ds.length 9)

/-- Modelled from chrono: `NaiveTime::parse_from_str(s, "%H%M%S")` —
three width-2 numeric fields, no trailing input, with range checks
(leap seconds are not modelled; no input in this development uses one). -/
def parseTimePlain (l : List Nat) : Option NTime :=
  match take2Digits l with
  | none => none
  | some (h, r1) =>
    match take2Digits r1 with
    | none => none
    | some (m, r2) =>
      match take2Digits r2 with
      | none => none
      | some (s, r3) =>
        if r3 = [] ∧ h < 24 ∧ m < 60 ∧ s < 60 then some ⟨h, m, s, 0⟩ else none

/-- Modelled from chrono: `NaiveTime::parse_from_str(s, "%H%M%S%.f")` —
as above but allowing a trailing `.` followed by at least one fraction
digit; with no trailing input the fraction is zero. -/
def parseTimeFrac (l : List Nat) : Option NTime :=
  match take2Digits l with
  | none => none
  | some (h, r1) =>
    match take2Digits r1 with
    | none => none
    | some (m, r2) =>
      match take2Digits r2 with
      | none => none
      | some (s, r3) =>
        if h < 24 ∧ m < 60 ∧ s < 60 then
          match r3 with
          | [] => some ⟨h, m, s, 0⟩
          | 46 :: ds =>
            if ds ≠ [] ∧ ds.all isDigit then some ⟨h, m, s, fracNano ds⟩ else none
          | _ => none
        else none

/-- The `GPSQuality` enum from `gga.rs`. -/
inductive GPSQuality where
  | Invalid | SPS | Differential | PPS | RTKFloat | RTKFixed
  | Estimated | Manual | Simulator | None
deriving DecidableEq, Repr

/-- Embedding of `GPSQuality::from_char`. -/
def GPSQuality.from_char (c : Nat) : GPSQuality :=
  if c = 48 then .Invalid
  else if c = 49 then .SPS
  else if c = 50 then .Differential
  else if c = 51 then .PPS
  else if c = 52 then .RTKFixed
  else if c = 53 then .RTKFloat
  else if c = 54 then .Estimated
  else if c = 55 then .Manual
  else if c = 56 then .Simulator
  else .Invalid

/-- The UTF-8 byte sequence of the Rust `String` built by mapping each
byte `b` to the char U+00`b` (the `*byte as char` collect in the source):
bytes below 128 encode as themselves, bytes 128..255 as two bytes. -/
def toUtf8 (bytes : List Nat) : List Nat :=
  bytes.flatMap (fun b => if b < 128 then [b] else [192 + b / 64, 128 + b % 64])

/-- Rust `str::is_char_boundary` on such a byte sequence: index 0, the
length, or any index whose byte is not a UTF-8 continuation byte. -/
def isCharBoundary (s : List Nat) (i : Nat) : Bool :=
  i == 0 || i == s.length || !(128 ≤ s.getD i 0 && s.getD i 0 < 192)

/-- Outcome of a fallible call that can also panic (string slicing at a
non-boundary index panics in Rust before any parse error can occur). -/
inductive ParseOutcome (α : Type) where
  | panicked
  | failed
  | ok (a : α)
deriving DecidableEq, Repr

/-- The `Coordinate` struct (degrees, minutes, direction char). -/
structure Coordinate where
  degrees : Nat
  minutes : ℚ
  direction : Nat
deriving DecidableEq, Repr

/-- The `Coordinate::default` value: 0 degrees, 0.0 minutes, direction `X`. -/
def Coordinate.default : Coordinate := ⟨0, 0, 88⟩

/-- Embedding of `Coordinate::from_latitude_string`: the field bytes are
first turned into a `String` char-by-char (UTF-8, see `toUtf8`); a byte
length below 4 is a length error, slicing `[..2]`/`[2..]` panics off a
char boundary, then the 2-char degree prefix parses as `u16`, the rest as
`f32`, and the direction must be `N` (78) or `S` (83). -/
def Coordinate.from_latitude_string (bytes : List Nat) (direction : Nat) :
    ParseOutcome Coordinate :=
  let s := toUtf8 bytes
  if s.length < 4 then .failed
  else if !(isCharBoundary s 2) then .panicked
  else
    match parseU16 (s.take 2) with
    | none => .failed
    | some degrees =>
      match parseF32 (s.drop 2) with
      | none => .failed
      | some minutes =>
        if direction ≠ 78 ∧ direction ≠ 83 then .failed
        else .ok ⟨degrees, minutes, direction⟩

/-- Embedding of `Coordinate::from_longitude_string`: as the latitude
version but with a 3-char degree prefix, minimum byte length 5, and
direction `E` (69) or `W` (87). -/
def Coordinate.from_longitude_string (bytes : List Nat) (direction : Nat) :
    ParseOutcome Coordinate :=
  let s := toUtf8 bytes
  if s.length < 5 then .failed
  else if !(isCharBoundary s 3) then .panicked
  else
    match parseU16 (s.take 3) with
    | none => .failed
    | some degrees =>
      match parseF32 (s.drop 3) with
      | none => .failed
      | some minutes =>
        if direction ≠ 69 ∧ direction ≠ 87 then .failed
        else .ok ⟨degrees, minutes, direction⟩

/-- The `GGA` record from `gga.rs`. -/
structure GGA where
  time : NTime
  latitude : Coordinate
  longitude : Coordinate
  gps_quality : GPSQuality
  satellites_in_use : Nat
  hdop : ℚ
  altitude : ℚ
  age_of_differential_gps : ℚ
  differential_station_id : Nat
  geoidal_separation : ℚ
deriving DecidableEq, Repr

/-- Embedding of `GGA::from_field`.  `none` models a panic: fewer than 14
fields (direct indexing up to `fields[13]`), a coordinate-string slice off
a char boundary, or `fields[5][0]` on an empty quality field when every
fallible parse before it succeeded. -/
def GGA.from_field (fields : List (List Nat)) : Option GGA :=
  if fields.length < 14 then none
  else
    let f := fun i => fields.getD i []
    let time : NTime :=
      match parseTimeFrac (f 0) with
      | some t => t
      | none => (parseTimePlain (f 0)).getD NTime.midnight
    match Coordinate.from_latitude_string (f 1) ((f 2).headD 88) with
    | .panicked => none
    | latRes =>
      let latitude := match latRes with
        | .ok c => c
        | _ => Coordinate.default
      let q1 : GPSQuality := match latRes with
        | .ok _ => .None
        | _ => .Invalid
      match Coordinate.from_longitude_string (f 3) ((f 4).headD 88) with
      | .panicked => none
      | lonRes =>
        let longitude := match lonRes with
          | .ok c => c
          | _ => Coordinate.default
        let q2 : GPSQuality := match lonRes with
          | .ok _ => q1
          | _ => .Invalid
        let satellites_in_use := (parseU8 (f 6)).getD 0
        let q3 : GPSQuality := match parseU8 (f 6) with
          | some _ => q2
          | none => .Invalid
        let hdop := (parseF32 (f 7)).getD 0
        let q4 : GPSQuality := match parseF32 (f 7) with
          | some _ => q3
          | none => .Invalid
        let altitude := (parseF32 (f 8)).getD 0
        let q5 : GPSQuality := match parseF32 (f 8) with
          | some _ => q4
          | none => .Invalid
        let geoidal_separation := (parseF32 (f 10)).getD 0
        let age_of_differential_gps := (parseF32 (f 12)).getD 0
        let differential_station_id := (parseU16 (f 13)).getD 0
        match q5 with
        | .None =>
          match f 5 with
          | [] => none
          | c :: _ =>
            some { time, latitude, longitude, gps_quality := GPSQuality.from_char c,
                   satellites_in_use, hdop, altitude, age_of_differential_gps,
                   differential_station_id, geoidal_separation }
        | q =>
          some { time, latitude, longitude, gps_quality := q,
                 satellites_in_use, hdop, altitude, age_of_differential_gps,
                 differential_station_id, geoidal_separation }

/-- The `GSAOperationModeConfig` enum. -/
inductive GSAOperationModeConfig where
  | Automatic | Manuel | Invalid
deriving DecidableEq, Repr

/-- Embedding of `GSAOperationModeConfig::from_field`. -/
def GSAOperationModeConfig.from_field (field : List Nat) : GSAOperationModeConfig :=
  if field = [77] then .Manuel
  else if field = [65] then .Automatic
  else .Invalid

/-- The `GSAOperationMode` enum. -/
inductive GSAOperationMode where
  | FixNotAvailable | TwoDimensional | ThreeDimensional | Invalid
deriving DecidableEq, Repr

/-- Embedding of `GSAOperationMode::from_field`. -/
def GSAOperationMode.from_field (field : List Nat) : GSAOperationMode :=
  if field = [49] then .FixNotAvailable
  else if field = [50] then .TwoDimensional
  else if field = [51] then .ThreeDimensional
  else .Invalid

/-- The `GSA` record from `gsa.rs`. -/
structure GSA where
  config : GSAOperationModeConfig
  mode : GSAOperationMode
  satellite_ids : List Nat
  pdop : ℚ
  hdop : ℚ
  vdop : ℚ
deriving DecidableEq, Repr

/-- Embedding of `GSA::from_field`.  `none` models the panic on fewer
than 3 fields (indices `0`, `1` and `len-1`/`len-2`/`len-3` are accessed
directly, the last with an unsigned subtraction). -/
def GSA.from_field (fields : List (List Nat)) : Option GSA :=
  if fields.length < 3 then none
  else
    some
      { config := GSAOperationModeConfig.from_field (fields.getD 0 [])
        mode := GSAOperationMode.from_field (fields.getD 1 [])
        satellite_ids :=
          (((fields.drop 2).takeWhile (fun field => !(field.contains 46))).filter
              (fun field => field ≠ [])).map (fun field => (parseU8 field).getD 0)
        pdop := (parseF32 (fields.getD (fields.length - 3) [])).getD 0
        hdop := (parseF32 (fields.getD (fields.length - 2) [])).getD 0
        vdop := (parseF32 (fields.getD (fields.length - 1) [])).getD 0 }

/-- The `DPT` record from `dpt.rs`. -/
structure DPT where
  depth : ℚ
  offset : ℚ
  range_scale : ℚ
deriving DecidableEq, Repr

/-- Embedding of `DPT::from_field`.  `none` models the panic on fewer
than 3 fields (indices 0, 1 and 2 are accessed directly). -/
def DPT.from_field (fields : List (List Nat)) : Option DPT :=
  if fields.length < 3 then none
  else
    some
      { depth := (parseF32 (fields.getD 0 [])).getD 0
        offset := (parseF32 (fields.getD 1 [])).getD 0
        range_scale := (parseF32 (fields.getD 2 [])).getD 0 }

/-- The `SentenceStatus` enum of the reader state machine. -/
inductive SentenceStatus where
  | NONE | STARTED | TERMINATED | COMPLETED
deriving DecidableEq, Repr

/-- Embedding of the byte loop inside `NMEASentenceReader::next`: the
state machine over one buffered chunk, with the trailing match that emits
a completed frame at the end of the chunk.  `sent` is the 82-byte working
buffer, `len` the running `sentence_length`. -/
def runLoop : SentenceStatus → Nat → List Nat → List Nat → Option NMEASentence
  | status, len, sent, [] =>
    match status with
    | .COMPLETED => some ⟨sent, len⟩
    | _ => none
  | status, len, sent, b :: rest =>
    match status with
    | .NONE =>
      if b = 36 ∨ b = 33 then runLoop .STARTED (len + 1) (sent.set len b) rest
      else runLoop .NONE len sent rest
    | .STARTED =>
      if b = 13 then runLoop .TERMINATED (len + 1) (sent.set len b) rest
      else if len + 1 > NMEA_SENTENCE_MAX_LENGTH - 2 then runLoop .NONE 0 (sent.set len b) rest
      else runLoop .STARTED (len + 1) (sent.set len b) rest
    | .TERMINATED =>
      if b = 10 then runLoop .COMPLETED (len + 1) (sent.set len b) rest
      else runLoop .NONE 0 (sent.set len b) rest
    | .COMPLETED => some ⟨sent, len⟩

/-- Embedding of one `NMEASentenceReader::next` call on the chunk `buf`
that the underlying `read_until(b'\n')` produced: an empty read returns
`None`, otherwise the state machine runs from `NONE` over a fresh
space-filled buffer. -/
def processBuf (buf : List Nat) : Option NMEASentence :=
  if buf.length < 1 then none
  else runLoop .NONE 0 (List.replicate NMEA_SENTENCE_MAX_LENGTH 32) buf

/-- Characters array holding the occupied bytes `occ` followed by the
space padding the reader buffer starts from. -/
def mkChars (occ : List Nat) : List Nat :=
  occ ++ List.replicate (NMEA_SENTENCE_MAX_LENGTH - occ.length) 32

/-- An emitted frame is well-formed: occupied length between 3 and the
82-byte capacity, buffer exactly 82 bytes, a `$`/`!` start byte, and CRLF
as the last two occupied bytes. -/
def goodFrame (s : NMEASentence) : Prop :=
  3 ≤ s.length ∧ s.length ≤ 82 ∧ s.characters.length = 82 ∧
    (s.characters.getD 0 0 = 36 ∨ s.characters.getD 0 0 = 33) ∧
    s.characters.getD (s.length - 2) 0 = 13 ∧ s.characters.getD (s.length - 1) 0 = 10

/-! Helper lemmas about lists, XOR and the state machine. -/

theorem getD_set_self {l : List Nat} {n b : Nat} (h : n < l.length) :
    (l.set n b).getD n 0 = b := by
  rw [List.getD_eq_getElem?_getD, List.getElem?_set_self h]
  rfl

theorem getD_set_ne {l : List Nat} {n m b : Nat} (h : n ≠ m) :
    (l.set n b).getD m 0 = l.getD m 0 := by
  rw [List.getD_eq_getElem?_getD, List.getElem?_set_ne h, ← List.getD_eq_getElem?_getD]

theorem take_set_succ {l : List Nat} {n b : Nat} (h : n < l.length) :
    (l.set n b).take (n + 1) = l.take n ++ [b] := by
  rw [List.set_eq_take_cons_drop _ h, List.take_append_eq_append_take, List.take_take]
  have h1 : min (n + 1) n = n := by omega
  have h2 : (List.take n l).length = n := by rw [List.length_take]; omega
  rw [h1, h2]
  have h3 : n + 1 - n = 1 := by omega
  rw [h3]
  rfl

theorem dropWhile_all_append {p : Nat → Bool} {l1 : List Nat} (l2 : List Nat)
    (h : ∀ b ∈ l1, p b = true) :
    List.dropWhile p (l1 ++ l2) = List.dropWhile p l2 := by
  induction l1 with
  | nil => rfl
  | cons a l ih =>
    rw [List.cons_append, List.dropWhile_cons, if_pos (h a (by simp))]
    exact ih (fun b hb => h b (by simp [hb]))

theorem takeWhile_ne_append {l1 l2 : List Nat} (h : ∀ b ∈ l1, b ≠ 42) :
    List.takeWhile (fun c => c ≠ 42) (l1 ++ 42 :: l2) = l1 := by
  induction l1 with
  | nil => simp [List.takeWhile_cons]
  | cons a l ih =>
    rw [List.cons_append, List.takeWhile_cons]
    have ha : a ≠ 42 := h a (by simp)
    rw [if_pos (by simpa using ha), ih (fun b hb => h b (by simp [hb]))]

theorem dropWhile_ne_append {l1 l2 : List Nat} (h : ∀ b ∈ l1, b ≠ 42) :
    List.dropWhile (fun c => c ≠ 42) (l1 ++ 42 :: l2) = 42 :: l2 := by
  induction l1 with
  | nil => simp [List.dropWhile_cons]
  | cons a l ih =>
    rw [List.cons_append, List.dropWhile_cons]
    have ha : a ≠ 42 := h a (by simp)
    rw [if_pos (by simpa using ha)]
    exact ih (fun b hb => h b (by simp [hb]))

theorem dropWhile_skip_stops {A B : List Nat} {b : Nat} (hb : isSkipByte b = false) :
    List.dropWhile isSkipByte (A ++ b :: B) =
      List.dropWhile isSkipByte A ++ b :: B := by
  induction A with
  | nil => simp [List.dropWhile_cons, hb]
  | cons a l ih =>
    rw [List.cons_append, List.dropWhile_cons, List.dropWhile_cons]
    by_cases ha : isSkipByte a = true
    · rw [if_pos ha, if_pos ha]
      exact ih
    · rw [if_neg ha, if_neg ha, List.cons_append]

theorem foldl_xor_eq (l : List Nat) : ∀ a : Nat,
    l.foldl (fun x c => x ^^^ c) a = a ^^^ xorAll l := by
  induction l with
  | nil => intro a; simp [xorAll]
  | cons c l ih =>
    intro a
    show l.foldl (fun x c => x ^^^ c) (a ^^^ c) = a ^^^ xorAll (c :: l)
    have hc : xorAll (c :: l) = c ^^^ xorAll l := by
      show l.foldl (fun x c => x ^^^ c) (0 ^^^ c) = c ^^^ xorAll l
      rw [ih (0 ^^^ c), Nat.zero_xor]
    rw [ih (a ^^^ c), hc, Nat.xor_assoc]

theorem xorAll_cons (b : Nat) (l : List Nat) : xorAll (b :: l) = b ^^^ xorAll l := by
  show l.foldl (fun x c => x ^^^ c) (0 ^^^ b) = b ^^^ xorAll l
  rw [foldl_xor_eq l (0 ^^^ b), Nat.zero_xor]

theorem xorAll_append (l1 l2 : List Nat) :
    xorAll (l1 ++ l2) = xorAll l1 ^^^ xorAll l2 := by
  induction l1 with
  | nil => simp [xorAll]
  | cons a l ih => rw [List.cons_append, xorAll_cons, xorAll_cons, ih, Nat.xor_assoc]

theorem xor_left_cancel {a x y : Nat} (h : a ^^^ x = a ^^^ y) : x = y := by
  have := congrArg (fun z => a ^^^ z) h
  simpa [← Nat.xor_assoc, Nat.xor_self, Nat.zero_xor] using this

/-! Claim theorems. -/

/-- C4: for every frame whose occupied length is at most 5, or whose
leading byte is neither `$` (36) nor `!` (33), `decode` returns an
Invalid-kind record with no address and the payload set to the raw frame
buffer, attempting no address or content parsing. -/
theorem decode_invalid_frames (s : NMEASentence)
    (h : s.length ≤ 5 ∨ (s.characters.getD 0 0 ≠ 36 ∧ s.characters.getD 0 0 ≠ 33)) :
    decode s = some { sentence_type := SentenceType.INVALID, address := none,
                      content := s.characters } := by
  rcases h with h | ⟨h36, h33⟩
  · unfold decode
    rw [if_pos h]
  · unfold decode
    by_cases h5 : s.length ≤ 5
    · rw [if_pos h5]
    · rw [if_neg h5, if_neg h33, if_neg h36]

/-- C4 witness: a frame of length 4 and a length-7 frame led by `A`. -/
theorem decode_invalid_frames_witness :
    decode ⟨mkChars [36, 65, 13, 10], 4⟩ =
      some { sentence_type := SentenceType.INVALID, address := none,
             content := mkChars [36, 65, 13, 10] } ∧
    decode ⟨mkChars [65, 66, 67, 68, 69, 13, 10], 7⟩ =
      some { sentence_type := SentenceType.INVALID, address := none,
             content := mkChars [65, 66, 67, 68, 69, 13, 10] } :=
  ⟨decode_invalid_frames ⟨mkChars [36, 65, 13, 10], 4⟩ (Or.inl (by decide)),
   decode_invalid_frames ⟨mkChars [65, 66, 67, 68, 69, 13, 10], 7⟩ (Or.inr (by decide))⟩

/-- C1 (amended): for a frame whose buffer has the fixed 82-byte capacity
and whose occupied length admits the branch's payload range — at least 10
for `!`-led and parametric frames, 7 for proprietary, 9 for query —
`decode` classifies kind and address purely from fixed byte offsets, with
the payload ending at `length - 3` in every case.  (For shorter frames
with length above 5 the payload slice has reversed bounds and the code
panics; see the counterexample.) -/
theorem decode_fixed_offsets (s : NMEASentence)
    (hchars : s.characters.length = 82) (hcap : s.length ≤ 82) :
    (s.characters.getD 0 0 = 33 → 10 ≤ s.length →
      decode s = some { sentence_type := SentenceType.ENCAPSULATION
                        address := some
                          { address_type := NMEAAddressFieldType.APPROVED
                            address := Address.Approved
                              { talker := (s.characters.getD 1 0, s.characters.getD 2 0)
                                formatter := (s.characters.getD 3 0, s.characters.getD 4 0,
                                  s.characters.getD 5 0) } }
                        content := (s.characters.take (s.length - 3)).drop 7 }) ∧
    (s.characters.getD 0 0 = 36 → s.characters.getD 1 0 = 80 → 7 ≤ s.length →
      decode s = some { sentence_type := SentenceType.PROPRIETARY
                        address := some
                          { address_type := NMEAAddressFieldType.PROPRIETARY
                            address := Address.Proprietary
                              { manufacturer := (s.characters.getD 1 0, s.characters.getD 2 0,
                                  s.characters.getD 3 0) } }
                        content := (s.characters.take (s.length - 3)).drop 4 }) ∧
    (s.characters.getD 0 0 = 36 → s.characters.getD 1 0 ≠ 80 →
      s.characters.getD 5 0 = 81 → 9 ≤ s.length →
      decode s = some { sentence_type := SentenceType.QUERY
                        address := some
                          { address_type := NMEAAddressFieldType.QUERY
                            address := Address.Query
                              { listener := (s.characters.getD 1 0, s.characters.getD 2 0)
                                talker := (s.characters.getD 3 0, s.characters.getD 4 0) } }
                        content := (s.characters.take (s.length - 3)).drop 6 }) ∧
    (s.characters.getD 0 0 = 36 → s.characters.getD 1 0 ≠ 80 →
      s.characters.getD 5 0 ≠ 81 → 10 ≤ s.length →
      decode s = some { sentence_type := SentenceType.PARAMETRIC
                        address := some
                          { address_type := NMEAAddressFieldType.APPROVED
                            address := Address.Approved
                              { talker := (s.characters.getD 1 0, s.characters.getD 2 0)
                                formatter := (s.characters.getD 3 0, s.characters.getD 4 0,
                                  s.characters.getD 5 0) } }
                        content := (s.characters.take (s.length - 3)).drop 7 }) := by
  refine ⟨fun h0 hl => ?_, fun h0 h1 hl => ?_, fun h0 h1 h5 hl => ?_, fun h0 h1 h5 hl => ?_⟩
  · unfold decode
    rw [if_neg (by omega), if_pos h0]
    unfold rustSlice
    rw [if_pos (by rw [hchars]; omega)]
    rfl
  · unfold decode
    rw [if_neg (by omega), if_neg (by rw [h0]; omega), if_pos h0, if_pos h1]
    unfold rustSlice
    rw [if_pos (by rw [hchars]; omega)]
    rfl
  · unfold decode
    rw [if_neg (by omega), if_neg (by rw [h0]; omega), if_pos h0, if_neg h1, if_pos h5]
    unfold rustSlice
    rw [if_pos (by rw [hchars]; omega)]
    rfl
  · unfold decode
    rw [if_neg (by omega), if_neg (by rw [h0]; omega), if_pos h0, if_neg h1, if_neg h5]
    unfold rustSlice
    rw [if_pos (by rw [hchars]; omega)]
    rfl

/-- C1 counterexample: a frame of occupied length 6 (which is greater
than 5) led by `!` makes `decode` panic — the payload slice `[7 .. 3]`
has reversed bounds — instead of yielding an Encapsulation record as the
claim states. -/
theorem decode_short_encapsulation_panics :
    5 < (6 : Nat) ∧ decode ⟨mkChars [33, 65, 66, 67, 13, 10], 6⟩ = none := by
  constructor
  · decide
  · rfl

/-- C1 witness: a 10-byte parametric frame is classified from its fixed
offsets. -/
theorem decode_fixed_offsets_witness :
    decode ⟨mkChars [36, 71, 80, 71, 71, 65, 44, 120, 13, 10], 10⟩ =
      some { sentence_type := SentenceType.PARAMETRIC
             address := some
               { address_type := NMEAAddressFieldType.APPROVED
                 address := Address.Approved { talker := (71, 80), formatter := (71, 71, 65) } }
             content := [] } := by
  have h := (decode_fixed_offsets ⟨mkChars [36, 71, 80, 71, 71, 65, 44, 120, 13, 10], 10⟩
    (by decide) (by decide)).2.2.2 (by decide) (by decide) (by decide) (by decide)
  rw [h]
  rfl

/-- Payload bytes of `A,3,32,21,22,01,03,31,04,17,08,71,72,,1.50,0.90,1.20`. -/
def payloadGSA : List Nat :=
  [65, 44, 51, 44, 51, 50, 44, 50, 49, 44, 50, 50, 44, 48, 49, 44, 48, 51, 44,
   51, 49, 44, 48, 52, 44, 49, 55, 44, 48, 56, 44, 55, 49, 44, 55, 50, 44, 44,
   49, 46, 53, 48, 44, 48, 46, 57, 48, 44, 49, 46, 50, 48]

/-- C7: splitting that payload on `,` yields exactly the 17 field slices
below — the 14th (index 13) empty — and feeding them to `GSA::from_field`
yields config Automatic, mode ThreeDimensional, the 11 satellite ids, and
pdop 1.50, hdop 0.90, vdop 1.20. -/
theorem gsa_roundtrip :
    splitFields payloadGSA =
      [[65], [51], [51, 50], [50, 49], [50, 50], [48, 49], [48, 51], [51, 49],
       [48, 52], [49, 55], [48, 56], [55, 49], [55, 50], [],
       [49, 46, 53, 48], [48, 46, 57, 48], [49, 46, 50, 48]] ∧
    (splitFields payloadGSA).length = 17 ∧
    (splitFields payloadGSA).getD 13 [0] = [] ∧
    GSA.from_field (splitFields payloadGSA) =
      some { config := GSAOperationModeConfig.Automatic
             mode := GSAOperationMode.ThreeDimensional
             satellite_ids := [32, 21, 22, 1, 3, 31, 4, 17, 8, 71, 72]
             pdop := 3 / 2, hdop := 9 / 10, vdop := 6 / 5 } := by
  refine ⟨by decide, by decide, by decide, ?_⟩
  have h : GSA.from_field (splitFields payloadGSA) =
      some { config := GSAOperationModeConfig.Automatic
             mode := GSAOperationMode.ThreeDimensional
             satellite_ids := [32, 21, 22, 1, 3, 31, 4, 17, 8, 71, 72]
             pdop := (1 : ℚ) + 50 / 10 ^ 2
             hdop := (0 : ℚ) + 90 / 10 ^ 2
             vdop := (1 : ℚ) + 20 / 10 ^ 2 } := rfl
  rw [h]
  simp only [Option.some.injEq, GSA.mk.injEq]
  norm_num

/-- C3 counterexample: `DPT::from_field` on the single-field sequence
`["1.0"]` panics (`fields[1]` is out of bounds) instead of yielding a
record with defaulted fields, so a field sequence can make the parser
abort. -/
theorem dpt_short_fields_panic :
    DPT.from_field [[49, 46, 48]] = none := by decide

theorem getD_mem_of_lt {l : List Nat} {n : Nat} (h : n < l.length) : l.getD n 0 ∈ l := by
  rw [List.getD_eq_getElem?_getD, List.getElem?_eq_getElem h]
  exact List.getElem_mem h

theorem toUtf8_ascii {l : List Nat} (h : ∀ b ∈ l, b < 128) : toUtf8 l = l := by
  induction l with
  | nil => rfl
  | cons a l ih =>
    have ha : a < 128 := h a (by simp)
    show (if a < 128 then [a] else [192 + a / 64, 128 + a % 64]) ++ toUtf8 l = a :: l
    rw [if_pos ha, ih (fun b hb => h b (by simp [hb]))]
    rfl

theorem boundary_of_ascii {l : List Nat} (h : ∀ b ∈ l, b < 128) {i : Nat}
    (hi : i < l.length) : isCharBoundary l i = true := by
  unfold isCharBoundary
  have := h (l.getD i 0) (getD_mem_of_lt hi)
  simp only [Bool.or_eq_true, beq_iff_eq, Bool.not_eq_eq_eq_not, Bool.not_true,
    Bool.and_eq_false_imp, decide_eq_true_eq, decide_eq_false_iff_not]
  omega

theorem latitude_ascii_no_panic {bytes : List Nat} (h : ∀ b ∈ bytes, b < 128) (d : Nat) :
    Coordinate.from_latitude_string bytes d ≠ ParseOutcome.panicked := by
  unfold Coordinate.from_latitude_string
  rw [toUtf8_ascii h]
  by_cases h4 : bytes.length < 4
  · rw [if_pos h4]
    exact fun hc => nomatch hc
  · rw [if_neg h4, if_neg (by rw [boundary_of_ascii h (by omega)]; simp)]
    rcases hU : parseU16 (bytes.take 2) with _ | deg
    · simp
    · rcases hF : parseF32 (bytes.drop 2) with _ | mins
      · simp
      · by_cases hd : d ≠ 78 ∧ d ≠ 83 <;> simp [hd]

theorem longitude_ascii_no_panic {bytes : List Nat} (h : ∀ b ∈ bytes, b < 128) (d : Nat) :
    Coordinate.from_longitude_string bytes d ≠ ParseOutcome.panicked := by
  unfold Coordinate.from_longitude_string
  rw [toUtf8_ascii h]
  by_cases h5 : bytes.length < 5
  · rw [if_pos h5]
    exact fun hc => nomatch hc
  · rw [if_neg h5, if_neg (by rw [boundary_of_ascii h (by omega)]; simp)]
    rcases hU : parseU16 (bytes.take 3) with _ | deg
    · simp
    · rcases hF : parseF32 (bytes.drop 3) with _ | mins
      · simp
      · by_cases hd : d ≠ 69 ∧ d ≠ 87 <;> simp [hd]

theorem latitude_bad_direction {bytes : List Nat} (h : ∀ b ∈ bytes, b < 128)
    {d : Nat} (h78 : d ≠ 78) (h83 : d ≠ 83) :
    Coordinate.from_latitude_string bytes d = ParseOutcome.failed := by
  unfold Coordinate.from_latitude_string
  rw [toUtf8_ascii h]
  by_cases h4 : bytes.length < 4
  · rw [if_pos h4]
  · rw [if_neg h4, if_neg (by rw [boundary_of_ascii h (by omega)]; simp)]
    rcases hU : parseU16 (bytes.take 2) with _ | deg
    · simp
    · rcases hF : parseF32 (bytes.drop 2) with _ | mins
      · simp
      · simp [h78, h83]

/-- Core characterization of `GGA::from_field` on panic-free inputs: with
at least 14 fields, ASCII coordinate fields, and either a non-empty
quality field or a failing latitude parse, the parser returns a record
whose time follows the fractional-then-plain-then-midnight fallback,
whose altitude is the parse-or-default of field 8, and which zeroes the
latitude and downgrades the quality when the latitude parse failed. -/
theorem gga_from_field_total (fields : List (List Nat))
    (h14 : 14 ≤ fields.length)
    (hlat : ∀ b ∈ fields.getD 1 [], b < 128)
    (hlon : ∀ b ∈ fields.getD 3 [], b < 128)
    (h5 : fields.getD 5 [] ≠ [] ∨
      Coordinate.from_latitude_string (fields.getD 1 []) ((fields.getD 2 []).headD 88) =
        ParseOutcome.failed) :
    ∃ g, GGA.from_field fields = some g ∧
      g.time = (match parseTimeFrac (fields.getD 0 []) with
        | some t => t
        | none => (parseTimePlain (fields.getD 0 [])).getD NTime.midnight) ∧
      g.altitude = (parseF32 (fields.getD 8 [])).getD 0 ∧
      (Coordinate.from_latitude_string (fields.getD 1 []) ((fields.getD 2 []).headD 88) =
          ParseOutcome.failed →
        g.latitude = Coordinate.default ∧ g.gps_quality = GPSQuality.Invalid) := by
  have hlat' := latitude_ascii_no_panic hlat ((fields.getD 2 []).headD 88)
  have hlon' := longitude_ascii_no_panic hlon ((fields.getD 4 []).headD 88)
  unfold GGA.from_field
  rw [if_neg (by omega)]
  dsimp only
  rcases hl : Coordinate.from_latitude_string (fields.getD 1 []) ((fields.getD 2 []).headD 88)
    with _ | _ | clat
  · exact absurd hl hlat'
  · rcases ho : Coordinate.from_longitude_string (fields.getD 3 []) ((fields.getD 4 []).headD 88)
      with _ | _ | clon
    · exact absurd ho hlon'
    · rcases h6 : parseU8 (fields.getD 6 []) with _ | n6 <;>
        rcases h7 : parseF32 (fields.getD 7 []) with _ | q7 <;>
          rcases h8 : parseF32 (fields.getD 8 []) with _ | q8 <;>
            exact ⟨_, rfl, rfl, rfl, fun _ => ⟨rfl, rfl⟩⟩
    · rcases h6 : parseU8 (fields.getD 6 []) with _ | n6 <;>
        rcases h7 : parseF32 (fields.getD 7 []) with _ | q7 <;>
          rcases h8 : parseF32 (fields.getD 8 []) with _ | q8 <;>
            exact ⟨_, rfl, rfl, rfl, fun _ => ⟨rfl, rfl⟩⟩
  · rcases ho : Coordinate.from_longitude_string (fields.getD 3 []) ((fields.getD 4 []).headD 88)
      with _ | _ | clon
    · exact absurd ho hlon'
    · rcases h6 : parseU8 (fields.getD 6 []) with _ | n6 <;>
        rcases h7 : parseF32 (fields.getD 7 []) with _ | q7 <;>
          rcases h8 : parseF32 (fields.getD 8 []) with _ | q8 <;>
            exact ⟨_, rfl, rfl, rfl, fun hc => nomatch hc⟩
    · rcases h6 : parseU8 (fields.getD 6 []) with _ | n6 <;>
        rcases h7 : parseF32 (fields.getD 7 []) with _ | q7 <;>
          rcases h8 : parseF32 (fields.getD 8 []) with _ | q8
      all_goals try exact ⟨_, rfl, rfl, rfl, fun hc => nomatch hc⟩
      rcases hf5 : fields.getD 5 [] with _ | ⟨c5, r5⟩
      · rcases h5 with h5 | h5
        · exact absurd hf5 h5
        · exact absurd (hl.symm.trans h5) (fun hc => nomatch hc)
      · exact ⟨_, rfl, rfl, rfl, fun hc => nomatch hc⟩

/-- C3 (amended): given at least the positional field count each parser
indexes directly (3 for `DPT`/`GSA`, 14 for `GGA` together with ASCII
coordinate fields and a non-empty quality field), each parser returns a
record built by independent per-field parse-or-default, rejecting
nothing.  (With fewer fields the parsers panic on direct indexing; see
the counterexample.) -/
theorem formatter_parsers_return_records (fields : List (List Nat)) :
    (3 ≤ fields.length →
      DPT.from_field fields = some
        { depth := (parseF32 (fields.getD 0 [])).getD 0
          offset := (parseF32 (fields.getD 1 [])).getD 0
          range_scale := (parseF32 (fields.getD 2 [])).getD 0 }) ∧
    (3 ≤ fields.length →
      GSA.from_field fields = some
        { config := GSAOperationModeConfig.from_field (fields.getD 0 [])
          mode := GSAOperationMode.from_field (fields.getD 1 [])
          satellite_ids :=
            (((fields.drop 2).takeWhile (fun field => !(field.contains 46))).filter
                (fun field => field ≠ [])).map (fun field => (parseU8 field).getD 0)
          pdop := (parseF32 (fields.getD (fields.length - 3) [])).getD 0
          hdop := (parseF32 (fields.getD (fields.length - 2) [])).getD 0
          vdop := (parseF32 (fields.getD (fields.length - 1) [])).getD 0 }) ∧
    (14 ≤ fields.length → (∀ b ∈ fields.getD 1 [], b < 128) →
      (∀ b ∈ fields.getD 3 [], b < 128) → fields.getD 5 [] ≠ [] →
      ∃ g, GGA.from_field fields = some g) := by
  refine ⟨fun h3 => ?_, fun h3 => ?_, fun h14 hlat hlon h5 => ?_⟩
  · unfold DPT.from_field
    rw [if_neg (by omega)]
  · unfold GSA.from_field
    rw [if_neg (by omega)]
  · obtain ⟨g, hg, -, -, -⟩ := gga_from_field_total fields h14 hlat hlon (Or.inl h5)
    exact ⟨g, hg⟩

/-- The spec's GGA example field sequence
`123519,4807.038,N,01131.000,E,1,08,0.9,545.4,M,46.9,M,,`. -/
def ggaFieldsEx : List (List Nat) :=
  [[49, 50, 51, 53, 49, 57], [52, 56, 48, 55, 46, 48, 51, 56], [78],
   [48, 49, 49, 51, 49, 46, 48, 48, 48], [69], [49], [48, 56], [48, 46, 57],
   [53, 52, 53, 46, 52], [77], [52, 54, 46, 57], [77], [], []]

/-- C3 witness: the three parsers at the source's own example inputs. -/
theorem formatter_parsers_return_records_witness :
    (∃ r, DPT.from_field [[56, 55, 46, 52], [48, 46, 48], []] = some r) ∧
    (∃ r, GSA.from_field [[65], [51], [49, 46, 48]] = some r) ∧
    (∃ g, GGA.from_field ggaFieldsEx = some g) :=
  ⟨⟨_, (formatter_parsers_return_records [[56, 55, 46, 52], [48, 46, 48], []]).1 (by decide)⟩,
   ⟨_, (formatter_parsers_return_records [[65], [51], [49, 46, 48]]).2.1 (by decide)⟩,
   (formatter_parsers_return_records ggaFieldsEx).2.2 (by decide) (by decide) (by decide)
     (by decide)⟩

/-- C5 (amended): for a GGA field sequence with its 14 positional fields,
ASCII latitude and longitude fields, a latitude direction that is neither
`N` (78) nor `S` (83), and a well-formed altitude field, the parser
returns a record with the zero-default latitude, quality Invalid
regardless of the quality-indicator field, and the altitude parsed to its
value.  (A latitude field with non-ASCII bytes instead panics in the
string slice; see the counterexample.) -/
theorem gga_bad_latitude_direction (fields : List (List Nat)) (alt : ℚ)
    (h14 : 14 ≤ fields.length)
    (hlat : ∀ b ∈ fields.getD 1 [], b < 128)
    (hlon : ∀ b ∈ fields.getD 3 [], b < 128)
    (h78 : (fields.getD 2 []).headD 88 ≠ 78)
    (h83 : (fields.getD 2 []).headD 88 ≠ 83)
    (halt : parseF32 (fields.getD 8 []) = some alt) :
    ∃ g, GGA.from_field fields = some g ∧ g.latitude = Coordinate.default ∧
      g.gps_quality = GPSQuality.Invalid ∧ g.altitude = alt := by
  have hfail := latitude_bad_direction hlat h78 h83
  obtain ⟨g, hg, -, haltg, hlatq⟩ := gga_from_field_total fields h14 hlat hlon (Or.inr hfail)
  obtain ⟨hlatd, hq⟩ := hlatq hfail
  refine ⟨g, hg, hlatd, hq, ?_⟩
  rw [haltg, halt]
  rfl

/-- C5 counterexample: 14 GGA fields whose latitude direction is `X` (88,
not N/S) and whose altitude field `545.4` is well-formed, but whose
latitude field bytes `[65, 255, 65, 65]` make `GGA::from_field` panic
(the `String` built from them is `Aÿ AA`, five UTF-8 bytes, and the degree
slice `[..2]` falls inside the two-byte `ÿ`), so no record with a zeroed
latitude is produced. -/
theorem gga_nonascii_latitude_panics :
    GGA.from_field [[49, 50, 51, 53, 49, 57], [65, 255, 65, 65], [88],
      [48, 49, 49, 51, 49, 46, 48, 48, 48], [69], [49], [48, 56], [48, 46, 57],
      [53, 52, 53, 46, 52], [77], [52, 54, 46, 57], [77], [], []] = none ∧
    (88 : Nat) ≠ 78 ∧ (88 : Nat) ≠ 83 ∧
    (parseF32 [53, 52, 53, 46, 52]).isSome = true := by
  exact ⟨rfl, by decide, by decide, rfl⟩

/-- GGA example fields with the latitude direction replaced by `X`. -/
def ggaFieldsBadDir : List (List Nat) :=
  [[49, 50, 51, 53, 49, 57], [52, 56, 48, 55, 46, 48, 51, 56], [88],
   [48, 49, 49, 51, 49, 46, 48, 48, 48], [69], [49], [48, 56], [48, 46, 57],
   [53, 52, 53, 46, 52], [77], [52, 54, 46, 57], [77], [], []]

/-- C5 witness: the example fields with direction `X` yield a record with
zeroed latitude, Invalid quality (although the quality field says SPS),
and altitude 545.4. -/
theorem gga_bad_latitude_direction_witness :
    ∃ g, GGA.from_field ggaFieldsBadDir = some g ∧ g.latitude = Coordinate.default ∧
      g.gps_quality = GPSQuality.Invalid ∧ g.altitude = 2727 / 5 := by
  apply gga_bad_latitude_direction ggaFieldsBadDir (2727 / 5) (by decide) (by decide)
    (by decide) (by decide) (by decide)
  rw [show parseF32 (ggaFieldsBadDir.getD 8 []) = some ((545 : ℚ) + 4 / 10 ^ 1) from rfl]
  norm_num

/-- C8: for every GGA field sequence on which the parser completes (14
positional fields, ASCII coordinate fields, non-empty quality field), the
time field is parsed by first attempting the fractional-seconds format,
retrying without fractional seconds when that fails, and defaulting to
midnight when both fail. -/
theorem gga_time_fallback (fields : List (List Nat))
    (h14 : 14 ≤ fields.length)
    (hlat : ∀ b ∈ fields.getD 1 [], b < 128)
    (hlon : ∀ b ∈ fields.getD 3 [], b < 128)
    (h5 : fields.getD 5 [] ≠ []) :
    ∃ g, GGA.from_field fields = some g ∧
      (∀ t, parseTimeFrac (fields.getD 0 []) = some t → g.time = t) ∧
      (parseTimeFrac (fields.getD 0 []) = none →
        ∀ t, parseTimePlain (fields.getD 0 []) = some t → g.time = t) ∧
      (parseTimeFrac (fields.getD 0 []) = none → parseTimePlain (fields.getD 0 []) = none →
        g.time = NTime.midnight) := by
  obtain ⟨g, hg, htime, -, -⟩ := gga_from_field_total fields h14 hlat hlon (Or.inl h5)
  refine ⟨g, hg, ?_, ?_, ?_⟩
  · intro t ht
    rw [htime, ht]
  · intro hfrac t ht
    rw [htime, hfrac, ht]
    rfl
  · intro hfrac hplain
    rw [htime, hfrac, hplain]
    rfl

/-- C8 witness: the example time `123519` parses through the fractional
format on the first attempt. -/
theorem gga_time_fallback_witness :
    ∃ g, GGA.from_field ggaFieldsEx = some g ∧ g.time = ⟨12, 35, 19, 0⟩ := by
  obtain ⟨g, hg, h1, -, -⟩ :=
    gga_time_fallback ggaFieldsEx (by decide) (by decide) (by decide) (by decide)
  exact ⟨g, hg, h1 ⟨12, 35, 19, 0⟩ (by decide)⟩

theorem hexVal_bounds {c v : Nat} (h : hexVal c = some v) :
    v ≤ 15 ∧ ((48 ≤ c ∧ c ≤ 57) ∨ (65 ≤ c ∧ c ≤ 70) ∨ (97 ≤ c ∧ c ≤ 102)) := by
  unfold hexVal at h
  split_ifs at h with hc1 hc2 hc3 <;>
    simp only [Option.some.injEq] at h <;> simp_all <;> omega

theorem hexVal_not_ws {c v : Nat} (h : hexVal c = some v) :
    isWhitespaceByte c = false := by
  obtain ⟨-, hb⟩ := hexVal_bounds h
  unfold isWhitespaceByte
  simp only [Bool.or_eq_false_iff, beq_eq_false_iff_ne]
  omega

theorem dropWhile_then_take {P : List Nat} (T : List Nat) (hP : ∀ b ∈ P, b ≠ 42) :
    (List.dropWhile isSkipByte (P ++ 42 :: T)).takeWhile (fun c => c ≠ 42) =
      P.dropWhile isSkipByte := by
  induction P with
  | nil =>
    rw [List.nil_append, List.dropWhile_cons, if_neg (by decide), List.takeWhile_cons,
      if_neg (by decide)]
    rfl
  | cons p P' ih =>
    rw [List.cons_append, List.dropWhile_cons, List.dropWhile_cons]
    by_cases hp : isSkipByte p = true
    · rw [if_pos hp, if_pos hp]
      exact ih (fun b hb => hP b (by simp [hb]))
    · rw [if_neg hp, if_neg hp, List.takeWhile_cons,
        if_pos (by simpa using hP p (by simp)),
        takeWhile_ne_append (fun b hb => hP b (by simp [hb]))]

/-- The two checksum computations of `NMEASentence` on a well-formed
frame `<start><payload>*<h1><h2><CR><LF>` followed by space padding: the
calculated checksum is the XOR of the payload bytes past the leading
skip-prefix, and the parsed checksum is the value of the two hex
digits. -/
theorem frame_checksums (st : Nat) (P : List Nat) (h1 h2 v1 v2 : Nat)
    (hst : st = 36 ∨ st = 33)
    (hP : ∀ b ∈ P, b ≠ 42)
    (hh1 : hexVal h1 = some v1) (hh2 : hexVal h2 = some v2) :
    calculate_checksum ⟨mkChars (st :: P ++ [42, h1, h2, 13, 10]),
        (st :: P ++ [42, h1, h2, 13, 10]).length⟩ = xorAll (P.dropWhile isSkipByte) ∧
    parse_checksum ⟨mkChars (st :: P ++ [42, h1, h2, 13, 10]),
        (st :: P ++ [42, h1, h2, 13, 10]).length⟩ = 16 * v1 + v2 := by
  set pad := List.replicate
    (NMEA_SENTENCE_MAX_LENGTH - (st :: P ++ [42, h1, h2, 13, 10]).length) 32 with hpad
  have hchars : mkChars (st :: P ++ [42, h1, h2, 13, 10]) =
      st :: (P ++ 42 :: (h1 :: h2 :: 13 :: 10 :: pad)) := by
    unfold mkChars
    rw [← hpad]
    simp
  have hstskip : isSkipByte st = true := by
    rcases hst with h | h <;> rw [h] <;> decide
  have hpadws : ∀ b ∈ pad.reverse, isWhitespaceByte b = true := by
    intro b hb
    rw [List.mem_reverse] at hb
    rw [List.eq_of_mem_replicate hb]
    decide
  constructor
  · show xorAll _ = _
    rw [hchars]
    show xorAll ((List.dropWhile isSkipByte
      (st :: (P ++ 42 :: (h1 :: h2 :: 13 :: 10 :: pad)))).takeWhile (fun c => c ≠ 42)) = _
    rw [List.dropWhile_cons, if_pos hstskip, dropWhile_then_take _ hP]
  · show (parseHexU8 (trimBytes _)).getD 0 = _
    rw [hchars]
    have hL : ∀ b ∈ st :: P, b ≠ 42 := by
      intro b hb
      rcases List.mem_cons.1 hb with h | h
      · subst h
        rcases hst with h' | h' <;> omega
      · exact hP b h
    rw [show st :: (P ++ 42 :: (h1 :: h2 :: 13 :: 10 :: pad)) =
        (st :: P) ++ 42 :: (h1 :: h2 :: 13 :: 10 :: pad) from rfl,
      dropWhile_ne_append hL]
    show (parseHexU8 (trimBytes (h1 :: h2 :: 13 :: 10 :: pad))).getD 0 = _
    have hb1 := hexVal_bounds hh1
    have hb2 := hexVal_bounds hh2
    have htrim : trimBytes (h1 :: h2 :: 13 :: 10 :: pad) = [h1, h2] := by
      unfold trimBytes
      rw [List.dropWhile_cons, if_neg (by simp [hexVal_not_ws hh1])]
      rw [show h1 :: h2 :: 13 :: 10 :: pad = [h1, h2, 13, 10] ++ pad from rfl,
        List.reverse_append, dropWhile_all_append _ hpadws,
        show List.reverse [h1, h2, 13, 10] = [10, 13, h2, h1] from by simp,
        List.dropWhile_cons, if_pos (by decide), List.dropWhile_cons, if_pos (by decide),
        List.dropWhile_cons, if_neg (by simp [hexVal_not_ws hh2])]
      rfl
    have hdig : hexDigitsVal [h1, h2] = 16 * v1 + v2 := by
      unfold hexDigitsVal
      simp only [List.foldl]
      rw [hh1, hh2]
      simp only [Option.getD_some]
      omega
    have hval : parseHexU8 [h1, h2] = some (16 * v1 + v2) := by
      unfold parseHexU8
      dsimp only
      have hh43 : ¬([h1, h2].headD 0 = 43) := by
        show ¬(h1 = 43)
        omega
      rw [if_neg hh43, if_neg (show ¬([h1, h2] = [] : Prop) by simp),
        if_neg (by simp [hh1, hh2]), if_pos (by rw [hdig]; omega), hdig]
    rw [htrim, hval]
    rfl

/-- C2 (amended): for every frame whose occupied bytes are a start byte,
a `*`-free payload, `*`, two hex digits and CRLF (padded with spaces),
`valid()` returns true exactly when the XOR of the payload bytes past the
leading `$`/`!`/`,` skip-prefix equals the value of the two hex digits;
and flipping one bit of a payload byte that is not itself a skip byte
invalidates the frame, provided the flipped byte does not become `*` or a
skip byte.  (Flipping a payload byte into `*` can leave the frame valid —
both checksum sides can collapse to 0 — see the counterexample.) -/
theorem checksum_xor_iff (st : Nat) (P : List Nat) (h1 h2 v1 v2 : Nat)
    (hst : st = 36 ∨ st = 33)
    (hP : ∀ b ∈ P, b ≠ 42)
    (hh1 : hexVal h1 = some v1) (hh2 : hexVal h2 = some v2) :
    (valid ⟨mkChars (st :: P ++ [42, h1, h2, 13, 10]),
        (st :: P ++ [42, h1, h2, 13, 10]).length⟩ = true ↔
      xorAll (P.dropWhile isSkipByte) = 16 * v1 + v2) ∧
    (∀ A b B k, P = A ++ b :: B →
      isSkipByte b = false → isSkipByte (b ^^^ 2 ^ k) = false → b ^^^ 2 ^ k ≠ 42 →
      valid ⟨mkChars (st :: P ++ [42, h1, h2, 13, 10]),
        (st :: P ++ [42, h1, h2, 13, 10]).length⟩ = true →
      valid ⟨mkChars (st :: (A ++ (b ^^^ 2 ^ k) :: B) ++ [42, h1, h2, 13, 10]),
        (st :: (A ++ (b ^^^ 2 ^ k) :: B) ++ [42, h1, h2, 13, 10]).length⟩ = false) := by
  obtain ⟨hcalc, hparse⟩ := frame_checksums st P h1 h2 v1 v2 hst hP hh1 hh2
  have hiff : valid ⟨mkChars (st :: P ++ [42, h1, h2, 13, 10]),
      (st :: P ++ [42, h1, h2, 13, 10]).length⟩ = true ↔
      xorAll (P.dropWhile isSkipByte) = 16 * v1 + v2 := by
    unfold valid
    rw [hcalc, hparse]
    exact beq_iff_eq
  refine ⟨hiff, fun A b B k hPeq hb hb' hb42 hvalid => ?_⟩
  have hP' : ∀ x ∈ A ++ (b ^^^ 2 ^ k) :: B, x ≠ 42 := by
    intro x hx
    rcases List.mem_append.1 hx with h | h
    · exact hP x (by rw [hPeq]; exact List.mem_append_left _ h)
    · rcases List.mem_cons.1 h with h | h
      · rw [h]
        exact hb42
      · exact hP x (by rw [hPeq]; exact List.mem_append_right _ (List.mem_cons_of_mem _ h))
  obtain ⟨hcalc', hparse'⟩ := frame_checksums st (A ++ (b ^^^ 2 ^ k) :: B) h1 h2 v1 v2 hst hP'
    hh1 hh2
  have hxor_old : xorAll (P.dropWhile isSkipByte) = 16 * v1 + v2 := hiff.mp hvalid
  have hxor_ne : xorAll ((A ++ (b ^^^ 2 ^ k) :: B).dropWhile isSkipByte) ≠ 16 * v1 + v2 := by
    rw [dropWhile_skip_stops hb', xorAll_append, xorAll_cons]
    rw [hPeq, dropWhile_skip_stops hb, xorAll_append, xorAll_cons] at hxor_old
    intro hcontr
    have h1 : (b ^^^ 2 ^ k) ^^^ xorAll B = b ^^^ xorAll B :=
      xor_left_cancel (hcontr.trans hxor_old.symm)
    rw [Nat.xor_comm (b ^^^ 2 ^ k) (xorAll B), Nat.xor_comm b (xorAll B)] at h1
    have h2 : b ^^^ 2 ^ k = b := xor_left_cancel h1
    have h3 : b ^^^ 2 ^ k = b ^^^ 0 := by
      rw [Nat.xor_zero]
      exact h2
    have h4 : 2 ^ k = 0 := xor_left_cancel h3
    have h5 : 0 < 2 ^ k := Nat.two_pow_pos k
    omega
  unfold valid
  rw [hcalc', hparse']
  exact beq_eq_false_iff_ne.mpr hxor_ne

/-- C2 counterexample: the frame `$+*2B\r\n` validates (the checksum of
the payload `+` is 0x2B), and flipping bit 0 of the payload byte `+` (43)
yields `*` (42), giving the frame `$**2B\r\n` — which still validates:
the calculated XOR stops at the new `*` and is 0, while the parsed
checksum reads `*2B`, fails hex parsing and defaults to 0.  So flipping a
single bit of one payload byte of a previously-valid frame does not
always make `valid()` false. -/
theorem checksum_bitflip_preserved :
    valid ⟨mkChars [36, 43, 42, 50, 66, 13, 10], 7⟩ = true ∧
    (43 : Nat) ^^^ 2 ^ 0 = 42 ∧
    valid ⟨mkChars [36, 42, 42, 50, 66, 13, 10], 7⟩ = true := by
  refine ⟨by decide, by decide, by decide⟩

/-- C2 witness: the frame `$+*2B\r\n` validates, and flipping bit 1 of
the payload byte `+` (to `)`) makes it invalid. -/
theorem checksum_xor_iff_witness :
    valid ⟨mkChars [36, 43, 42, 50, 66, 13, 10], 7⟩ = true ∧
    valid ⟨mkChars [36, 43 ^^^ 2 ^ 1, 42, 50, 66, 13, 10], 7⟩ = false := by
  have h := checksum_xor_iff 36 [43] 50 66 2 11 (Or.inl rfl) (by decide) (by decide) (by decide)
  have hv : valid ⟨mkChars [36, 43, 42, 50, 66, 13, 10], 7⟩ = true := h.1.mpr (by decide)
  exact ⟨hv, h.2 [] 43 [] 1 rfl (by decide) (by decide) (by decide) hv⟩

theorem runLoop_none_skip (pre : List Nat) : ∀ (len : Nat) (sent rest : List Nat),
    (∀ b ∈ pre, b ≠ 36 ∧ b ≠ 33) →
    runLoop SentenceStatus.NONE len sent (pre ++ rest) =
      runLoop SentenceStatus.NONE len sent rest := by
  induction pre with
  | nil => intro len sent rest h; rfl
  | cons a l ih =>
    intro len sent rest h
    have ha := h a (by simp)
    rw [List.cons_append,
      show runLoop SentenceStatus.NONE len sent (a :: (l ++ rest)) =
        (if a = 36 ∨ a = 33 then
          runLoop SentenceStatus.STARTED (len + 1) (sent.set len a) (l ++ rest)
        else runLoop SentenceStatus.NONE len sent (l ++ rest)) from rfl,
      if_neg (by tauto)]
    exact ih len sent rest (fun b hb => h b (by simp [hb]))

/-- C9: a buffered chunk containing no `$` (36) and no `!` (33) byte
makes the reader's scan produce no frame, so every `next` call on a
stream with no such bytes returns `None` and the stream yields zero
frames. -/
theorem no_start_byte_no_frames (buf : List Nat)
    (h : ∀ b ∈ buf, b ≠ 36 ∧ b ≠ 33) : processBuf buf = none := by
  unfold processBuf
  by_cases hb : buf.length < 1
  · rw [if_pos hb]
  · rw [if_neg hb]
    have hskip := runLoop_none_skip buf 0 (List.replicate NMEA_SENTENCE_MAX_LENGTH 32) [] h
    rw [List.append_nil] at hskip
    rw [hskip]
    rfl

/-- C9 witness: the chunk `AB,C\n` yields no frame. -/
theorem no_start_byte_no_frames_witness :
    processBuf [65, 66, 44, 67, 10] = none :=
  no_start_byte_no_frames [65, 66, 44, 67, 10] (by decide)

/-- Per-status invariant of the reader state machine. -/
def statusInv : SentenceStatus → Nat → List Nat → Prop
  | .NONE, len, sent => sent.length = 82 ∧ len = 0
  | .STARTED, len, sent => sent.length = 82 ∧ 1 ≤ len ∧ len ≤ 80 ∧
      (sent.getD 0 0 = 36 ∨ sent.getD 0 0 = 33)
  | .TERMINATED, len, sent => sent.length = 82 ∧ 2 ≤ len ∧ len ≤ 81 ∧
      (sent.getD 0 0 = 36 ∨ sent.getD 0 0 = 33) ∧ sent.getD (len - 1) 0 = 13
  | .COMPLETED, len, sent => sent.length = 82 ∧ 3 ≤ len ∧ len ≤ 82 ∧
      (sent.getD 0 0 = 36 ∨ sent.getD 0 0 = 33) ∧ sent.getD (len - 2) 0 = 13 ∧
      sent.getD (len - 1) 0 = 10

theorem runLoop_inv (buf : List Nat) : ∀ (status : SentenceStatus) (len : Nat)
    (sent : List Nat) (s : NMEASentence),
    statusInv status len sent → runLoop status len sent buf = some s → goodFrame s := by
  induction buf with
  | nil =>
    intro status len sent s hinv hrun
    cases status
    · exact absurd hrun (by simp [runLoop])
    · exact absurd hrun (by simp [runLoop])
    · exact absurd hrun (by simp [runLoop])
    · rw [show runLoop SentenceStatus.COMPLETED len sent [] = some ⟨sent, len⟩ from rfl] at hrun
      cases hrun
      obtain ⟨hL, h3, h82, hhead, hcr, hlf⟩ := hinv
      exact ⟨h3, h82, hL, hhead, hcr, hlf⟩
  | cons b rest ih =>
    intro status len sent s hinv hrun
    cases status
    · obtain ⟨hL, hlen0⟩ := hinv
      subst hlen0
      rw [show runLoop SentenceStatus.NONE 0 sent (b :: rest) =
          (if b = 36 ∨ b = 33 then
            runLoop SentenceStatus.STARTED 1 (sent.set 0 b) rest
          else runLoop SentenceStatus.NONE 0 sent rest) from rfl] at hrun
      by_cases hb : b = 36 ∨ b = 33
      · rw [if_pos hb] at hrun
        refine ih SentenceStatus.STARTED 1 (sent.set 0 b) s
          ⟨by rw [List.length_set]; exact hL, by omega, by omega, ?_⟩ hrun
        rw [getD_set_self (by omega)]
        exact hb
      · rw [if_neg hb] at hrun
        exact ih SentenceStatus.NONE 0 sent s ⟨hL, rfl⟩ hrun
    · obtain ⟨hL, h1, h80, hhead⟩ := hinv
      rw [show runLoop SentenceStatus.STARTED len sent (b :: rest) =
          (if b = 13 then
            runLoop SentenceStatus.TERMINATED (len + 1) (sent.set len b) rest
          else if len + 1 > NMEA_SENTENCE_MAX_LENGTH - 2 then
            runLoop SentenceStatus.NONE 0 (sent.set len b) rest
          else runLoop SentenceStatus.STARTED (len + 1) (sent.set len b) rest) from rfl] at hrun
      by_cases hb : b = 13
      · rw [if_pos hb] at hrun
        subst hb
        refine ih SentenceStatus.TERMINATED (len + 1) (sent.set len 13) s
          ⟨by rw [List.length_set]; exact hL, by omega, by omega, ?_, ?_⟩ hrun
        · rw [getD_set_ne (by omega)]
          exact hhead
        · show (sent.set len 13).getD len 0 = 13
          exact getD_set_self (by omega)
      · rw [if_neg hb] at hrun
        by_cases hover : len + 1 > NMEA_SENTENCE_MAX_LENGTH - 2
        · rw [if_pos hover] at hrun
          exact ih SentenceStatus.NONE 0 (sent.set len b) s
            ⟨by rw [List.length_set]; exact hL, rfl⟩ hrun
        · rw [if_neg hover] at hrun
          have hover' : len + 1 ≤ 80 := by
            unfold NMEA_SENTENCE_MAX_LENGTH at hover
            omega
          refine ih SentenceStatus.STARTED (len + 1) (sent.set len b) s
            ⟨by rw [List.length_set]; exact hL, by omega, hover', ?_⟩ hrun
          rw [getD_set_ne (by omega)]
          exact hhead
    · obtain ⟨hL, h2, h81, hhead, hcr⟩ := hinv
      rw [show runLoop SentenceStatus.TERMINATED len sent (b :: rest) =
          (if b = 10 then
            runLoop SentenceStatus.COMPLETED (len + 1) (sent.set len b) rest
          else runLoop SentenceStatus.NONE 0 (sent.set len b) rest) from rfl] at hrun
      by_cases hb : b = 10
      · rw [if_pos hb] at hrun
        subst hb
        refine ih SentenceStatus.COMPLETED (len + 1) (sent.set len 10) s
          ⟨by rw [List.length_set]; exact hL, by omega, by omega, ?_, ?_, ?_⟩ hrun
        · rw [getD_set_ne (by omega)]
          exact hhead
        · show (sent.set len 10).getD (len + 1 - 2) 0 = 13
          have hidx : len + 1 - 2 = len - 1 := by omega
          rw [hidx, getD_set_ne (by omega)]
          exact hcr
        · show (sent.set len 10).getD len 0 = 10
          exact getD_set_self (by omega)
      · rw [if_neg hb] at hrun
        exact ih SentenceStatus.NONE 0 (sent.set len b) s
          ⟨by rw [List.length_set]; exact hL, rfl⟩ hrun
    · rw [show runLoop SentenceStatus.COMPLETED len sent (b :: rest) = some ⟨sent, len⟩
        from rfl] at hrun
      cases hrun
      obtain ⟨hL, h3, h82, hhead, hcr, hlf⟩ := hinv
      exact ⟨h3, h82, hL, hhead, hcr, hlf⟩

/-- C10: every frame `NMEASentenceReader::next` emits is well-formed:
occupied length between 3 and the 82-byte buffer capacity (so frame
assembly never writes out of bounds), a `$`/`!` first byte, and CR LF as
the last two occupied bytes. -/
theorem emitted_frame_invariant (buf : List Nat) (s : NMEASentence)
    (h : processBuf buf = some s) : goodFrame s := by
  unfold processBuf at h
  by_cases hb : buf.length < 1
  · rw [if_pos hb] at h
    exact absurd h (by simp)
  · rw [if_neg hb] at h
    exact runLoop_inv buf SentenceStatus.NONE 0 _ s ⟨by simp [NMEA_SENTENCE_MAX_LENGTH], rfl⟩ h

/-- C10 witness: the frame emitted from the chunk `$AB\r\n` is
well-formed. -/
theorem emitted_frame_invariant_witness :
    goodFrame ⟨mkChars [36, 65, 66, 13, 10], 5⟩ :=
  emitted_frame_invariant [36, 65, 66, 13, 10] ⟨mkChars [36, 65, 66, 13, 10], 5⟩ (by decide)

theorem runLoop_oversize (junk : List Nat) : ∀ (len : Nat) (sent rest : List Nat),
    (∀ b ∈ junk, b ≠ 13 ∧ b ≠ 36 ∧ b ≠ 33) → 1 ≤ len → len ≤ 80 →
    80 < len + junk.length → sent.length = 82 →
    ∃ sent2, sent2.length = 82 ∧
      runLoop SentenceStatus.STARTED len sent (junk ++ rest) =
        runLoop SentenceStatus.NONE 0 sent2 rest := by
  induction junk with
  | nil =>
    intro len sent rest h h1 h80 hover hL
    simp at hover
    omega
  | cons b junk' ih =>
    intro len sent rest h h1 h80 hover hL
    have hb := h b (by simp)
    rw [List.cons_append,
      show runLoop SentenceStatus.STARTED len sent (b :: (junk' ++ rest)) =
        (if b = 13 then
          runLoop SentenceStatus.TERMINATED (len + 1) (sent.set len b) (junk' ++ rest)
        else if len + 1 > NMEA_SENTENCE_MAX_LENGTH - 2 then
          runLoop SentenceStatus.NONE 0 (sent.set len b) (junk' ++ rest)
        else runLoop SentenceStatus.STARTED (len + 1) (sent.set len b) (junk' ++ rest))
        from rfl,
      if_neg hb.1]
    by_cases hover1 : len + 1 > NMEA_SENTENCE_MAX_LENGTH - 2
    · rw [if_pos hover1, runLoop_none_skip junk' 0 (sent.set len b) rest
        (fun x hx => (h x (by simp [hx])).2)]
      exact ⟨sent.set len b, by rw [List.length_set]; exact hL, rfl⟩
    · rw [if_neg hover1]
      have hover1' : len + 1 ≤ 80 := by
        unfold NMEA_SENTENCE_MAX_LENGTH at hover1
        omega
      exact ih (len + 1) (sent.set len b) rest (fun x hx => h x (by simp [hx]))
        (by omega) hover1' (by simp at hover ⊢; omega)
        (by rw [List.length_set]; exact hL)

theorem runLoop_collect (body : List Nat) : ∀ (len : Nat) (sent : List Nat),
    (∀ b ∈ body, b ≠ 13) → 1 ≤ len → len + body.length ≤ 80 → sent.length = 82 →
    ∃ chars, runLoop SentenceStatus.STARTED len sent (body ++ [13, 10]) =
        some ⟨chars, len + body.length + 2⟩ ∧
      chars.length = 82 ∧
      chars.take (len + body.length + 2) = sent.take len ++ body ++ [13, 10] := by
  induction body with
  | nil =>
    intro len sent hb h1 h80 hL
    refine ⟨(sent.set len 13).set (len + 1) 10, ?_, ?_, ?_⟩
    · rfl
    · rw [List.length_set, List.length_set]
      exact hL
    · have hstep : ((sent.set len 13).set (len + 1) 10).take (len + 1 + 1) =
          (sent.set len 13).take (len + 1) ++ [10] :=
        take_set_succ (by rw [List.length_set]; omega)
      have hstep2 : (sent.set len 13).take (len + 1) = sent.take len ++ [13] :=
        take_set_succ (by omega)
      simp only [List.length_nil, Nat.add_zero]
      rw [show len + 2 = len + 1 + 1 from rfl, hstep, hstep2]
      simp
  | cons b body' ih =>
    intro len sent hb h1 h80 hL
    have hb13 : b ≠ 13 := hb b (by simp)
    rw [List.cons_append,
      show runLoop SentenceStatus.STARTED len sent (b :: (body' ++ [13, 10])) =
        (if b = 13 then
          runLoop SentenceStatus.TERMINATED (len + 1) (sent.set len b) (body' ++ [13, 10])
        else if len + 1 > NMEA_SENTENCE_MAX_LENGTH - 2 then
          runLoop SentenceStatus.NONE 0 (sent.set len b) (body' ++ [13, 10])
        else runLoop SentenceStatus.STARTED (len + 1) (sent.set len b) (body' ++ [13, 10]))
        from rfl,
      if_neg hb13,
      if_neg (by unfold NMEA_SENTENCE_MAX_LENGTH; simp at h80 ⊢; omega)]
    obtain ⟨chars, hrun, hclen, htake⟩ := ih (len + 1) (sent.set len b)
      (fun x hx => hb x (by simp [hx])) (by omega) (by simp at h80 ⊢; omega)
      (by rw [List.length_set]; exact hL)
    refine ⟨chars, ?_, hclen, ?_⟩
    · rw [hrun]
      congr 1
      simp
      omega
    · rw [show len + (b :: body').length + 2 = len + 1 + body'.length + 2 from by simp; omega,
        htake, take_set_succ (by omega)]
      simp

/-- C6: while collecting a started frame, exceeding 80 occupied bytes
(capacity minus 2) before any carriage return makes the reader discard
the partial frame and reset to idle: a chunk holding only the oversized
unterminated frame produces no frame at all, and with a complete
`$`-started frame appended after the oversized span, the reader still
emits exactly that following frame. -/
theorem oversized_frame_resync (junk body : List Nat)
    (hjunk : ∀ b ∈ junk, b ≠ 13 ∧ b ≠ 36 ∧ b ≠ 33)
    (hjlen : 80 ≤ junk.length)
    (hbody : ∀ b ∈ body, b ≠ 13)
    (hblen : body.length ≤ 79) :
    processBuf (36 :: junk) = none ∧
    ∃ s, processBuf (36 :: junk ++ 36 :: body ++ [13, 10]) = some s ∧
      s.length = body.length + 3 ∧ s.characters.length = 82 ∧
      s.characters.take s.length = 36 :: body ++ [13, 10] := by
  constructor
  · unfold processBuf
    rw [if_neg (by simp),
      show runLoop SentenceStatus.NONE 0 (List.replicate NMEA_SENTENCE_MAX_LENGTH 32)
          (36 :: junk) =
        runLoop SentenceStatus.STARTED 1
          ((List.replicate NMEA_SENTENCE_MAX_LENGTH 32).set 0 36) junk from rfl]
    obtain ⟨sent2, hs2len, hs2⟩ := runLoop_oversize junk 1
      ((List.replicate NMEA_SENTENCE_MAX_LENGTH 32).set 0 36) [] hjunk (by omega) (by omega)
      (by omega) (by simp [NMEA_SENTENCE_MAX_LENGTH])
    rw [List.append_nil] at hs2
    rw [hs2]
    rfl
  · unfold processBuf
    rw [if_neg (by simp),
      show (36 :: junk ++ 36 :: body ++ [13, 10] : List Nat) =
        36 :: (junk ++ (36 :: (body ++ [13, 10]))) from by simp,
      show runLoop SentenceStatus.NONE 0 (List.replicate NMEA_SENTENCE_MAX_LENGTH 32)
          (36 :: (junk ++ (36 :: (body ++ [13, 10])))) =
        runLoop SentenceStatus.STARTED 1
          ((List.replicate NMEA_SENTENCE_MAX_LENGTH 32).set 0 36)
          (junk ++ (36 :: (body ++ [13, 10]))) from rfl]
    obtain ⟨sent2, hs2len, hs2⟩ := runLoop_oversize junk 1
      ((List.replicate NMEA_SENTENCE_MAX_LENGTH 32).set 0 36) (36 :: (body ++ [13, 10]))
      hjunk (by omega) (by omega) (by omega) (by simp [NMEA_SENTENCE_MAX_LENGTH])
    rw [hs2,
      show runLoop SentenceStatus.NONE 0 sent2 (36 :: (body ++ [13, 10])) =
        runLoop SentenceStatus.STARTED 1 (sent2.set 0 36) (body ++ [13, 10]) from rfl]
    obtain ⟨chars, hrun, hclen, htake⟩ := runLoop_collect body 1 (sent2.set 0 36) hbody
      (by omega) (by omega) (by rw [List.length_set]; exact hs2len)
    refine ⟨⟨chars, 1 + body.length + 2⟩, hrun,
      by show 1 + body.length + 2 = body.length + 3; omega, hclen, ?_⟩
    show chars.take (1 + body.length + 2) = _
    rw [htake, take_set_succ (by omega)]
    simp

/-- C6 witness: a chunk with an 81-byte unterminated frame produces
nothing, and the same oversized span followed by `$AB\r\n` produces
exactly the frame `$AB\r\n`. -/
theorem oversized_frame_resync_witness :
    processBuf (36 :: List.replicate 80 65) = none ∧
    ∃ s, processBuf (36 :: List.replicate 80 65 ++ 36 :: [65, 66] ++ [13, 10]) = some s ∧
      s.length = 5 ∧ s.characters.length = 82 ∧
      s.characters.take s.length = [36, 65, 66, 13, 10] := by
  obtain ⟨h1, h2⟩ := oversized_frame_resync (List.replicate 80 65) [65, 66]
    (by decide) (by decide) (by decide) (by decide)
  exact ⟨h1, h2⟩

end NMEA
